import Mathlib

/-
Verification of the mkideal/log logging library.

This development shallowly embeds the data model and operations of the
logging engine: level gating of the leveled logging calls, the fatal-call
termination path, the asynchronous dispatch engine (flush and shutdown),
the entry buffer pool, the rotating file sink, and the level-partitioned
multi-file router.  Machine integers that cannot overflow in the modelled
scenarios are embedded as Nat or Int; fallible operations return an
explicit error component.  Concurrency is collapsed to the sequential
semantics of the single worker: an enqueue followed by a drain is modelled
as explicit state passing, and the one genuinely nondeterministic branch
(the timed select in the channel printer) is modelled by a Bool parameter
selecting the branch taken.
-/

namespace MkidealLog

/-! ## Levels

The repository has two level enumerations.  The logger package uses
FATAL=0, ERROR=1, WARN=2, INFO=3, DEBUG=4, TRACE=5 (NumLevel=6).  The log
package (printer) uses LvFATAL=1 through LvTRACE=6.  In both, FATAL is
numerically smallest and TRACE largest.  -/

namespace LoggerPkg

def FATAL : Nat := 0
def ERROR : Nat := 1
def WARN : Nat := 2
def INFO : Nat := 3
def DEBUG : Nat := 4
def TRACE : Nat := 5
def NumLevel : Nat := 6

/-- The two stack-trace marker lines appended around a captured stack for
fatal entries, from logger.output. -/
def beginStackMarker : String := "========= BEGIN STACK TRACE =========\n"

def endStackMarker : String := "========== END STACK TRACE ==========\n"

/-- Length of the header written by logger.formatHeader: 27 fixed bytes
(bracket, level letter, date, time), the file name, then a colon, the
digits of the line number and a closing bracket plus space (n+3 bytes).
logger.header returns an empty buffer when the noHeader flag is set. -/
def headerLen (noHeader : Bool) (fileLen lineDigits : Nat) : Nat :=
  if noHeader then 0 else 27 + fileLen + (lineDigits + 3)

/-- Length of the rendered entry built by logger.output for the six
leveled methods (which pass data=nil): header, then the rendered format
string, then a newline unless the buffer is empty or already ends in a
newline, then for FATAL the stack-trace block.  fmtEndsNl records whether
the rendered format string ends in a newline byte. -/
def outputLen (noHeader : Bool) (fileLen lineDigits fmtLen : Nat)
    (fmtEndsNl : Bool) (level : Nat) (stackLen : Nat) : Nat :=
  let h := headerLen noHeader fileLen lineDigits
  let n1 := h + fmtLen
  -- the last byte is a newline only if it comes from the format string;
  -- a nonempty header always ends in a space byte
  let lastIsNl := 0 < fmtLen && fmtEndsNl
  let n2 := if 0 < n1 && !lastIsNl then n1 + 1 else n1
  if level = FATAL then
    n2 + beginStackMarker.length + stackLen + endStackMarker.length
  else n2

/-- Whether logger.output hands the entry on for writing: the entry is
dropped when its rendered length is zero (the buf.Len() == 0 check);
otherwise it is enqueued (async) or written inline (sync). -/
def outputWrites (noHeader : Bool) (fileLen lineDigits fmtLen : Nat)
    (fmtEndsNl : Bool) (level : Nat) (stackLen : Nat) : Bool :=
  decide (0 < outputLen noHeader fileLen lineDigits fmtLen fmtEndsNl level stackLen)

/-- logger.Trace: output only when GetLevel() >= TRACE. -/
def traceCall (threshold : Nat) (noHeader : Bool)
    (fileLen lineDigits fmtLen : Nat) (fmtEndsNl : Bool) (stackLen : Nat) : Bool :=
  if TRACE ≤ threshold then
    outputWrites noHeader fileLen lineDigits fmtLen fmtEndsNl TRACE stackLen
  else false

/-- logger.Debug: output only when GetLevel() >= DEBUG. -/
def debugCall (threshold : Nat) (noHeader : Bool)
    (fileLen lineDigits fmtLen : Nat) (fmtEndsNl : Bool) (stackLen : Nat) : Bool :=
  if DEBUG ≤ threshold then
    outputWrites noHeader fileLen lineDigits fmtLen fmtEndsNl DEBUG stackLen
  else false

/-- logger.Info: output only when GetLevel() >= INFO. -/
def infoCall (threshold : Nat) (noHeader : Bool)
    (fileLen lineDigits fmtLen : Nat) (fmtEndsNl : Bool) (stackLen : Nat) : Bool :=
  if INFO ≤ threshold then
    outputWrites noHeader fileLen lineDigits fmtLen fmtEndsNl INFO stackLen
  else false

/-- logger.Warn: output only when GetLevel() >= WARN. -/
def warnCall (threshold : Nat) (noHeader : Bool)
    (fileLen lineDigits fmtLen : Nat) (fmtEndsNl : Bool) (stackLen : Nat) : Bool :=
  if WARN ≤ threshold then
    outputWrites noHeader fileLen lineDigits fmtLen fmtEndsNl WARN stackLen
  else false

/-- logger.Error: output only when GetLevel() >= ERROR. -/
def errorCall (threshold : Nat) (noHeader : Bool)
    (fileLen lineDigits fmtLen : Nat) (fmtEndsNl : Bool) (stackLen : Nat) : Bool :=
  if ERROR ≤ threshold then
    outputWrites noHeader fileLen lineDigits fmtLen fmtEndsNl ERROR stackLen
  else false

/-- logger.Fatal: calls output unconditionally (no threshold check in the
source). -/
def fatalCall (_threshold : Nat) (noHeader : Bool)
    (fileLen lineDigits fmtLen : Nat) (fmtEndsNl : Bool) (stackLen : Nat) : Bool :=
  outputWrites noHeader fileLen lineDigits fmtLen fmtEndsNl FATAL stackLen

/-- Dispatch a leveled logging call to the corresponding logger method. -/
def leveledCall (level threshold : Nat) (noHeader : Bool)
    (fileLen lineDigits fmtLen : Nat) (fmtEndsNl : Bool) (stackLen : Nat) : Bool :=
  match level with
  | 0 => fatalCall threshold noHeader fileLen lineDigits fmtLen fmtEndsNl stackLen
  | 1 => errorCall threshold noHeader fileLen lineDigits fmtLen fmtEndsNl stackLen
  | 2 => warnCall threshold noHeader fileLen lineDigits fmtLen fmtEndsNl stackLen
  | 3 => infoCall threshold noHeader fileLen lineDigits fmtLen fmtEndsNl stackLen
  | 4 => debugCall threshold noHeader fileLen lineDigits fmtLen fmtEndsNl stackLen
  | 5 => traceCall threshold noHeader fileLen lineDigits fmtLen fmtEndsNl stackLen
  | _ + 6 => false

end LoggerPkg

namespace LogPkg

def LvFATAL : Nat := 1
def LvERROR : Nat := 2
def LvWARN : Nat := 3
def LvINFO : Nat := 4
def LvDEBUG : Nat := 5
def LvTRACE : Nat := 6

/-- Length of the entry rendered by printer.output: a 29-byte fixed part
plus the file name plus the line digits and 3 bracket bytes (the header is
unconditional in the printer), an optional parenthesised prefix part, the
rendered format, an optional trailing newline, and for LvFATAL the stack
block.  The header always ends in a space byte, so the newline test only
depends on the format when it is nonempty. -/
def printerEntryLen (pfxPartLen fileLen lineDigits fmtLen : Nat)
    (fmtEndsNl : Bool) (level : Nat) (stackLen : Nat) : Nat :=
  let h := 29 + fileLen + (lineDigits + 3)
  let n1 := h + pfxPartLen + fmtLen
  let lastIsNl := 0 < fmtLen && fmtEndsNl
  let n2 := if 0 < n1 && !lastIsNl then n1 + 1 else n1
  if level = LvFATAL then
    n2 + LoggerPkg.beginStackMarker.length + stackLen + LoggerPkg.endStackMarker.length
  else n2

/-- printer.Printf: calls output only when GetLevel() >= level; output
drops the entry when its rendered length is zero (never the case, since
the printer header is unconditional). -/
def printfWrites (threshold level : Nat)
    (pfxPartLen fileLen lineDigits fmtLen : Nat)
    (fmtEndsNl : Bool) (stackLen : Nat) : Bool :=
  if level ≤ threshold then
    decide (0 < printerEntryLen pfxPartLen fileLen lineDigits fmtLen fmtEndsNl level stackLen)
  else false

end LogPkg

/-! ## Entry buffer pool

From printer.getEntry/putEntry (log package) and logger.getBuffer/putBuffer
(logger package): a singly linked free list of entries; release pushes onto
the head unless the retained content exceeds 256 bytes; acquire pops the
head, clears the next link and calls Reset, or allocates a zero-valued
fresh entry when the list is empty.  The two pools differ in one point:
the log-package entry type overrides Reset to also clear the header
offset, while the logger-package buffer type declares no Reset method, so
b.Reset() there is the promoted bytes.Buffer.Reset, which clears only the
byte buffer and leaves headerLength stale on recycled buffers. -/

/-- An abstracted pool entry: an identity (for object-identity reasoning),
the buffer length e.Len(), the header offset, and whether the free-list
next pointer is nil. -/
structure PoolEntry where
  id : Nat
  len : Nat
  headerLen : Nat
  nextNil : Bool
deriving DecidableEq, Repr

/-- printer.putEntry / logger.putBuffer: drop the entry if e.Len() > 256,
else push it onto the free-list head (its next pointer then points at the
old head, which is nil exactly when the list was empty). -/
def putEntry (e : PoolEntry) (freeList : List PoolEntry) : List PoolEntry :=
  if 256 < e.len then freeList
  else { e with nextNil := freeList.isEmpty } :: freeList

/-- printer.getEntry (log package): pop the head, set next to nil and call
Reset — the overriding (*entry).Reset, which clears both the buffer length
and the header offset; on an empty list allocate a fresh zero-valued entry
with identity freshId. -/
def getEntry (freshId : Nat) (freeList : List PoolEntry) :
    PoolEntry × List PoolEntry :=
  match freeList with
  | [] => ({ id := freshId, len := 0, headerLen := 0, nextNil := true }, [])
  | b :: rest => ({ b with len := 0, headerLen := 0, nextNil := true }, rest)

/-- logger.getBuffer (logger package): pop the head, set next to nil and
call b.Reset() — the buffer type declares no Reset override, so this is
the promoted bytes.Buffer.Reset, clearing only the byte buffer; the
headerLength field keeps its stale value from the previous record.  On an
empty list a fresh zero-valued buffer is allocated. -/
def getBuffer (freshId : Nat) (freeList : List PoolEntry) :
    PoolEntry × List PoolEntry :=
  match freeList with
  | [] => ({ id := freshId, len := 0, headerLen := 0, nextNil := true }, [])
  | b :: rest => ({ b with len := 0, nextNil := true }, rest)

/-- The identities handed out by n successive acquires that were recycled
from the free list (fresh allocations are not recorded). -/
def recycledIds : Nat → List PoolEntry → List Nat
  | 0, _ => []
  | n + 1, freeList =>
    match freeList with
    | [] => recycledIds n []
    | b :: rest => b.id :: recycledIds n rest

/-! ## Asynchronous dispatch engine

From printer.go (log package): a pending queue of entries guarded by a
condition variable, a single worker that repeatedly pops all pending
entries and writes them in arrival order, a flush signal channel and a
quit channel.  Entries are identified by Nat ids; written records the
order in which entries were handed to the sink Write, and closeCount the
number of writer.Close() calls.  The logger package engine (Run/Quit over
a buffered channel with a quit marker) has the same sequential semantics. -/

structure EngineState where
  running : Bool
  queue : List Nat
  written : List Nat
  closeCount : Nat
deriving DecidableEq, Repr

/-- printer.output, async running path: queue.push appends the entry at
the tail of the pending queue. -/
def enqueue (e : Nat) (s : EngineState) : EngineState :=
  { s with queue := s.queue ++ [e] }

/-- queue.popAll: take the whole pending batch, leaving the queue empty. -/
def popAll (s : EngineState) : List Nat × EngineState :=
  (s.queue, { s with queue := [] })

/-- printer.writeEntries: hand each entry of the batch to the sink Write
in arrival order. -/
def writeEntries (es : List Nat) (s : EngineState) : EngineState :=
  { s with written := s.written ++ es }

/-- printer.flushAll: popAll then writeEntries. -/
def flushAll (s : EngineState) : EngineState :=
  let (es, s1) := popAll s
  writeEntries es s1

/-- printer.Flush: injects a flush signal; the worker drains the pending
queue via flushAll and then closes the response channel, unblocking the
caller.  (The caller only returns when the worker is running to consume
the signal, so flushOp gives the state at the moment Flush returns.) -/
def flushOp (s : EngineState) : EngineState :=
  flushAll s

/-- printer.Shutdown: a CompareAndSwap of running from 1 to 0 (a no-op
returning immediately when the engine is already stopped), then the quit
channel is closed, the worker performs a final flushAll and acknowledges,
and finally the caller invokes writer.Close() once. -/
def shutdown (s : EngineState) : EngineState :=
  if s.running = false then s
  else
    let s1 := { s with running := false }
    let s2 := flushAll s1
    { s2 with closeCount := s2.closeCount + 1 }

/-! ## Fatal-call termination

From the channel-based printer (the version with the level-dependent
enqueue timeout): printer.Printf at LvFATAL calls output when the level
passes the threshold, and then blocks the caller forever in an empty
select.  output appends the stack-trace block, then, when async and
running, offers the entry to the queue in a select racing a timer
(maxWaitTimeForImportantLevel = 3s for fatal); if the timer fires first
the entry is dropped.  The worker writeBuffer hands the entry to the sink
Write, and for LvFATAL then calls writer.Close() and os.Exit(1).  In the
sync path writeBuffer runs inline under the write lock.  The select race
is modelled by the Bool queueAccepts choosing the branch taken.
The logger package engine (logger.Fatal/writeBuffer) enqueues with an
unconditionally blocking channel send instead, then provider.Write,
provider.Close and os.Exit(1) in the worker. -/

structure FatalExec where
  written : Bool
  stackAppended : Bool
  sinkClosed : Bool
  exited : Bool
  writePrecededExit : Bool
deriving DecidableEq, Repr

/-- printer.Printf at level LvFATAL in the timed-select printer:
threshold is the current level, async and running the engine flags,
queueAccepts the branch of the timed select (true: the queue accepted the
entry before the timer fired; false: the timer fired and the entry was
dropped). -/
def printfFatalTimed (threshold : Nat) (async running queueAccepts : Bool) :
    FatalExec :=
  if LogPkg.LvFATAL ≤ threshold then
    -- output: render entry, append stack trace
    if async && running then
      if queueAccepts then
        -- worker writeBuffer: Write, then Close and Exit(1)
        { written := true, stackAppended := true, sinkClosed := true
          exited := true, writePrecededExit := true }
      else
        -- timer fired: entry dropped; Printf then blocks in select {}
        { written := false, stackAppended := true, sinkClosed := false
          exited := false, writePrecededExit := true }
    else
      -- sync path: writeBuffer inline: Write, Close, Exit(1)
      { written := true, stackAppended := true, sinkClosed := true
        exited := true, writePrecededExit := true }
  else
    -- threshold below LvFATAL: no output; Printf blocks in select {}
    { written := false, stackAppended := false, sinkClosed := false
      exited := false, writePrecededExit := true }

/-- logger.Fatal: output unconditionally (blocking channel send in the
async case, inline writeBuffer in the sync case); the worker or the inline
writeBuffer performs provider.Write, then for FATAL provider.Close and
os.Exit(1); the caller blocks in an empty select. -/
def loggerFatal (async : Bool) : FatalExec :=
  if async then
    { written := true, stackAppended := true, sinkClosed := true
      exited := true, writePrecededExit := true }
  else
    { written := true, stackAppended := true, sinkClosed := true
      exited := true, writePrecededExit := true }

/-! ## Rotating file sink

From the file provider (File.Write / File.rotate / File.closeCurrent /
newFile): currentSize counts the bytes handed to the OS for the currently
open file (including the banner written by rotate), createdDay the
calendar day the file was created, fileIndex the same-day rotation index
(starting at -1 before the first rotation), and hasWriter whether the
buffered writer is non-nil.  closeCurrent flushes and closes the file but
leaves the writer field in place.  Days are abstracted to Int day stamps
(isSameDay compares the calendar date); the create call outcome is passed
explicitly as ok.  dayRotCalls / sizeRotCalls instrument the two rotate
call sites in Write. -/

structure FileCfg where
  maxSize : Nat
  bannerLen : Nat
deriving DecidableEq, Repr

structure FileState where
  currentSize : Nat
  createdDay : Int
  fileIndex : Int
  hasWriter : Bool
  dayRotCalls : Nat
  sizeRotCalls : Nat
deriving DecidableEq, Repr

inductive FileErr where
  | writerNil
  | createFail
deriving DecidableEq, Repr

/-- File.closeCurrent: flush, sync and close the current file when a
writer exists, and reset currentSize to 0.  The writer field itself is
not cleared. -/
def closeCurrent (s : FileState) : FileState :=
  { s with currentSize := 0 }

/-- File.rotate: closeCurrent, then bump the rotation index ((i+1) mod
1000 on the same calendar day, else 0), record the new creation time, and
create the new file.  On creation failure the error is returned with the
file field nil but the writer field untouched.  On success a fresh
buffered writer is installed and the banner (creation timestamp and build
info) is written directly to the file, its length added to currentSize. -/
def rotate (cfg : FileCfg) (now : Int) (ok : Bool) (s : FileState) :
    FileState × Option FileErr :=
  let s1 := closeCurrent s
  let s2 := { s1 with
    fileIndex := if now = s1.createdDay then (s1.fileIndex + 1) % 1000 else 0,
    createdDay := now }
  if ok then
    ({ s2 with hasWriter := true, currentSize := s2.currentSize + cfg.bannerLen },
      none)
  else (s2, some .createFail)

/-- The file provider state produced by newFile: zero-valued fields except
fileIndex = -1, followed by the constructor call rotate(now).  The Go zero
time is on a different calendar day than any modelled day, so the initial
rotate takes the new-day branch; initDay stands for the construction day. -/
def mkFile (cfg : FileCfg) (initDay : Int) (ok : Bool) : FileState × Option FileErr :=
  rotate cfg initDay ok
    { currentSize := 0, createdDay := -1, fileIndex := -1, hasWriter := false
      dayRotCalls := 0, sizeRotCalls := 0 }

/-- File.Write: fail fast with the writer-is-nil error when the writer is
nil; rotate first when the calendar day changed (propagating a rotation
error); append the data, adding its length to currentSize; rotate again
when currentSize has reached the configured max size (this second rotate
has its error discarded in the source).  okDay and okSize are the create
outcomes for the two potential rotations. -/
def fileWrite (cfg : FileCfg) (now : Int) (dataLen : Nat)
    (okDay okSize : Bool) (s : FileState) : FileState × Option FileErr :=
  if s.hasWriter = false then (s, some .writerNil)
  else
    let (s1, derr) :=
      if now ≠ s.createdDay then
        let (t, e) := rotate cfg now okDay s
        ({ t with dayRotCalls := t.dayRotCalls + 1 }, e)
      else (s, none)
    match derr with
    | some e => (s1, some e)
    | none =>
      let s2 := { s1 with currentSize := s1.currentSize + dataLen }
      if cfg.maxSize ≤ s2.currentSize then
        let (s3, _e) := rotate cfg now okSize s2
        ({ s3 with sizeRotCalls := s3.sizeRotCalls + 1 }, none)
      else (s2, none)

/-- A sequence of Write calls, all on calendar day now with successful
file creations, as in the size-rotation scenario. -/
def runWrites (cfg : FileCfg) (now : Int) (ws : List Nat) (s : FileState) :
    FileState :=
  ws.foldl (fun acc w => (fileWrite cfg now w true true acc).1) s

/-! ## Level-partitioned file router

From the grouped MultiFile provider: a per-level array of file sinks
(NumLevel = 6 slots, FATAL=0 .. TRACE=5), lazily created; at construction
a grouping map from resolved absolute directory to the levels configured
to it is built (FATAL and ERROR both map to the error directory).
initForLevel creates the sink for the level and installs the same instance
into every same-directory slot that is still nil.  Close iterates the
slots skipping index 0 (FATAL), closing and clearing each non-nil slot.
Directories are abstracted to Nat labels standing for resolved absolute
paths; sink instances are numbered in creation order. -/

structure MFCfg where
  errDir : Nat
  warnDir : Nat
  infoDir : Nat
  debugDir : Nat
  traceDir : Nat
deriving DecidableEq, Repr

/-- MultiFile.configForLevel directory choice: FATAL and ERROR use the
error directory, WARN/INFO/DEBUG their own, and the default branch the
trace directory.  The same resolved directories key the grouping map. -/
def dirFor (cfg : MFCfg) (l : Nat) : Nat :=
  if l = 0 ∨ l = 1 then cfg.errDir
  else if l = 2 then cfg.warnDir
  else if l = 3 then cfg.infoDir
  else if l = 4 then cfg.debugDir
  else cfg.traceDir

/-- The levels grouped under resolved directory d (the grouping map built
in NewMultiFile from the six per-level directories). -/
def groupLevels (cfg : MFCfg) (d : Nat) : List Nat :=
  (List.range 6).filter (fun l => dirFor cfg l = d)

structure MFState where
  files : Nat → Option Nat
  nextId : Nat
  createdDirs : List Nat
  closes : List Nat

def MFState.init : MFState :=
  { files := fun _ => none, nextId := 0, createdDirs := [], closes := [] }

/-- MultiFile.initForLevel: bounds-check the level, create the file sink
for its directory, store it in the level slot, then alias it into every
still-nil slot of the same directory group. -/
def initForLevel (cfg : MFCfg) (st : MFState) (l : Nat) : MFState :=
  if 6 ≤ l then st
  else
    let f := st.nextId
    let files1 := fun x => if x = l then some f else st.files x
    let grp := groupLevels cfg (dirFor cfg l)
    let files2 := fun x =>
      if x ∈ grp ∧ files1 x = none then some f else files1 x
    { files := files2, nextId := f + 1
      createdDirs := st.createdDirs ++ [dirFor cfg l], closes := st.closes }

/-- MultiFile.Write: lazily create the sink for the level on first use,
then delegate the write to it (the delegated file write is not modelled
here). -/
def mfWrite (cfg : MFCfg) (st : MFState) (l : Nat) : MFState :=
  if st.files l = none then initForLevel cfg st l else st

def mfRun (cfg : MFCfg) (ws : List Nat) (st : MFState) : MFState :=
  ws.foldl (mfWrite cfg) st

/-- MultiFile.Close: iterate the level slots, skipping index 0, and for
each non-nil slot invoke the underlying file Close and clear the slot.
closes records each underlying Close invocation (with multiplicity). -/
def mfClose (st : MFState) : MFState :=
  [1, 2, 3, 4, 5].foldl
    (fun s i =>
      match s.files i with
      | some f =>
        { s with closes := s.closes ++ [f]
                 files := fun x => if x = i then none else s.files x }
      | none => s)
    st

/-- The router invariant maintained by the lazy per-level initialisation:
same-directory levels share a slot value; a slot is filled exactly when a
sink for its directory was created; each directory is created at most once
(createdDirs has no duplicates); distinct-directory slots never hold the
same sink; every created sink is held by some level slot; and slot values
are bounded by the creation counter. -/
structure MFInv (cfg : MFCfg) (st : MFState) : Prop where
  sh : ∀ l1 l2, l1 < 6 → l2 < 6 → dirFor cfg l1 = dirFor cfg l2 →
    st.files l1 = st.files l2
  lz : ∀ l, l < 6 → ((st.files l).isSome ↔ dirFor cfg l ∈ st.createdDirs)
  nd : st.createdDirs.Nodup
  inj : ∀ l1 l2 f, l1 < 6 → l2 < 6 → st.files l1 = some f →
    st.files l2 = some f → dirFor cfg l1 = dirFor cfg l2
  surj : ∀ f, f < st.nextId → ∃ l, l < 6 ∧ st.files l = some f
  bound : ∀ l f, l < 6 → st.files l = some f → f < st.nextId

/-! ## Helper lemmas -/

/-- With headers enabled the rendered entry of logger.output is never
empty, since the header contributes at least 30 bytes. -/
theorem outputLen_pos (fileLen lineDigits fmtLen : Nat) (fmtEndsNl : Bool)
    (level stackLen : Nat) :
    0 < LoggerPkg.outputLen false fileLen lineDigits fmtLen fmtEndsNl level stackLen := by
  simp only [LoggerPkg.outputLen, LoggerPkg.headerLen]
  split_ifs <;> simp_all

theorem outputWrites_header (fileLen lineDigits fmtLen : Nat) (fmtEndsNl : Bool)
    (level stackLen : Nat) :
    LoggerPkg.outputWrites false fileLen lineDigits fmtLen fmtEndsNl level stackLen = true := by
  simp [LoggerPkg.outputWrites, outputLen_pos]

/-- The printer header is unconditional, so the printer entry is never
empty. -/
theorem printerEntryLen_pos (pfxPartLen fileLen lineDigits fmtLen : Nat)
    (fmtEndsNl : Bool) (level stackLen : Nat) :
    0 < LogPkg.printerEntryLen pfxPartLen fileLen lineDigits fmtLen fmtEndsNl level stackLen := by
  simp only [LogPkg.printerEntryLen]
  split_ifs <;> simp_all

/-- Entries recycled from a free list all come from that free list. -/
theorem recycledIds_subset (n : Nat) (freeList : List PoolEntry) :
    ∀ x ∈ recycledIds n freeList, x ∈ freeList.map PoolEntry.id := by
  induction n generalizing freeList with
  | zero => intro x hx; simp [recycledIds] at hx
  | succ n ih =>
    intro x hx
    cases freeList with
    | nil => simpa [recycledIds] using ih [] x (by simpa [recycledIds] using hx)
    | cons b rest =>
      simp only [recycledIds, List.mem_cons] at hx
      rcases hx with h | h
      · simp [h]
      · have := ih rest x h
        simpa using Or.inr this

/-- Unfolding a run of Write calls one step. -/
theorem runWrites_cons (cfg : FileCfg) (now : Int) (w : Nat) (t : List Nat)
    (s : FileState) :
    runWrites cfg now (w :: t) s =
      runWrites cfg now t (fileWrite cfg now w true true s).1 := rfl

/-- A Write on the same calendar day with a present writer: no day
rotation; the data length is added to currentSize, and a size-triggered
rotation resets the file to a fresh one holding only the banner. -/
theorem fileWrite_same_day (cfg : FileCfg) (now : Int) (w : Nat) (s : FileState)
    (hw : s.hasWriter = true) (hd : s.createdDay = now) :
    (fileWrite cfg now w true true s).1 =
      if cfg.maxSize ≤ s.currentSize + w then
        { currentSize := cfg.bannerLen, createdDay := now,
          fileIndex := (s.fileIndex + 1) % 1000, hasWriter := true,
          dayRotCalls := s.dayRotCalls, sizeRotCalls := s.sizeRotCalls + 1 }
      else { s with currentSize := s.currentSize + w } := by
  subst hd
  simp only [fileWrite, rotate, closeCurrent, hw]
  split_ifs <;> simp_all

/-- Same-day writes that never reach the size threshold only accumulate. -/
theorem runWrites_no_rot (cfg : FileCfg) (now : Int) (ws : List Nat)
    (s : FileState) (hw : s.hasWriter = true) (hd : s.createdDay = now)
    (hlt : s.currentSize + ws.sum < cfg.maxSize) :
    (runWrites cfg now ws s).currentSize = s.currentSize + ws.sum ∧
    (runWrites cfg now ws s).sizeRotCalls = s.sizeRotCalls := by
  induction ws generalizing s with
  | nil => simp [runWrites]
  | cons w t ih =>
    simp only [List.sum_cons] at hlt
    rw [runWrites_cons, fileWrite_same_day cfg now w s hw hd,
      if_neg (by omega : ¬ cfg.maxSize ≤ s.currentSize + w)]
    have := ih { s with currentSize := s.currentSize + w } hw hd (by simp; omega)
    simp only [List.sum_cons]
    simp at this
    omega

/-- The size-rotation counter never decreases across a Write. -/
theorem fileWrite_sizeRots_le (cfg : FileCfg) (now : Int) (w : Nat)
    (okDay okSize : Bool) (s : FileState) :
    s.sizeRotCalls ≤ ((fileWrite cfg now w okDay okSize s).1).sizeRotCalls := by
  simp only [fileWrite, rotate, closeCurrent]
  split_ifs <;> simp

theorem runWrites_sizeRots_le (cfg : FileCfg) (now : Int) (ws : List Nat)
    (s : FileState) :
    s.sizeRotCalls ≤ (runWrites cfg now ws s).sizeRotCalls := by
  induction ws generalizing s with
  | nil => simp [runWrites]
  | cons w t ih =>
    rw [runWrites_cons]
    exact le_trans (fileWrite_sizeRots_le cfg now w true true s) (ih _)

/-- Same-day writes whose total pushes the accumulated size to the
threshold perform at least one size rotation. -/
theorem runWrites_at_least_one (cfg : FileCfg) (now : Int) (ws : List Nat)
    (s : FileState) (hw : s.hasWriter = true) (hd : s.createdDay = now)
    (hlt : s.currentSize < cfg.maxSize)
    (hge : cfg.maxSize ≤ s.currentSize + ws.sum) :
    s.sizeRotCalls + 1 ≤ (runWrites cfg now ws s).sizeRotCalls := by
  induction ws generalizing s with
  | nil => simp only [List.sum_nil, Nat.add_zero] at hge; omega
  | cons w t ih =>
    rw [runWrites_cons, fileWrite_same_day cfg now w s hw hd]
    by_cases hr : cfg.maxSize ≤ s.currentSize + w
    · rw [if_pos hr]
      have := runWrites_sizeRots_le cfg now t
        { currentSize := cfg.bannerLen, createdDay := now,
          fileIndex := (s.fileIndex + 1) % 1000, hasWriter := true,
          dayRotCalls := s.dayRotCalls, sizeRotCalls := s.sizeRotCalls + 1 }
      simpa using this
    · rw [if_neg hr]
      refine ih { s with currentSize := s.currentSize + w } hw hd (by simp; omega) ?_
      simp only [List.sum_cons] at hge
      simp
      omega

/-- Same-day writes whose total stays under twice the threshold (minus the
banner) perform at most one size rotation: once rotated, the fresh file
holding only the banner cannot reach the threshold again. -/
theorem runWrites_at_most_one (cfg : FileCfg) (now : Int) (ws : List Nat)
    (s : FileState) (hw : s.hasWriter = true) (hd : s.createdDay = now)
    (hlt : s.currentSize < cfg.maxSize)
    (hbound : s.currentSize + ws.sum + cfg.bannerLen < 2 * cfg.maxSize) :
    (runWrites cfg now ws s).sizeRotCalls ≤ s.sizeRotCalls + 1 := by
  induction ws generalizing s with
  | nil => simp [runWrites]
  | cons w t ih =>
    rw [runWrites_cons, fileWrite_same_day cfg now w s hw hd]
    by_cases hr : cfg.maxSize ≤ s.currentSize + w
    · rw [if_pos hr]
      have hnr := runWrites_no_rot cfg now t
        { currentSize := cfg.bannerLen, createdDay := now,
          fileIndex := (s.fileIndex + 1) % 1000, hasWriter := true,
          dayRotCalls := s.dayRotCalls, sizeRotCalls := s.sizeRotCalls + 1 }
        rfl rfl (by simp only [List.sum_cons] at hbound; simp; omega)
      simp at hnr
      omega
    · rw [if_neg hr]
      refine ih { s with currentSize := s.currentSize + w } hw hd (by simp; omega) ?_
      simp only [List.sum_cons] at hbound
      simp
      omega

theorem mfInv_init (cfg : MFCfg) : MFInv cfg MFState.init := by
  constructor <;> simp [MFState.init]

/-- After initForLevel at a level whose slot was empty, every level of the
same directory group holds the freshly created sink. -/
theorem initForLevel_files_same (cfg : MFCfg) (st : MFState) (w l : Nat)
    (hw : w < 6) (hl : l < 6) (hnone : st.files w = none)
    (hsh : ∀ l1 l2, l1 < 6 → l2 < 6 → dirFor cfg l1 = dirFor cfg l2 →
      st.files l1 = st.files l2)
    (hdir : dirFor cfg l = dirFor cfg w) :
    (initForLevel cfg st w).files l = some st.nextId := by
  simp only [initForLevel, if_neg (by omega : ¬ 6 ≤ w)]
  by_cases hlw : l = w
  · subst hlw; simp
  · have hgl : l ∈ groupLevels cfg (dirFor cfg w) := by
      simp only [groupLevels, List.mem_filter, List.mem_range, decide_eq_true_eq]
      exact ⟨hl, hdir⟩
    have hfl : st.files l = none := by rw [hsh l w hl hw hdir]; exact hnone
    simp [hlw, hgl, hfl]

/-- initForLevel leaves the slots of other directory groups unchanged. -/
theorem initForLevel_files_other (cfg : MFCfg) (st : MFState) (w l : Nat)
    (hw : w < 6) (hdir : dirFor cfg l ≠ dirFor cfg w) :
    (initForLevel cfg st w).files l = st.files l := by
  have hlw : l ≠ w := fun e => hdir (by rw [e])
  have hgl : l ∉ groupLevels cfg (dirFor cfg w) := by
    simp only [groupLevels, List.mem_filter, List.mem_range, decide_eq_true_eq]
    tauto
  simp [initForLevel, if_neg (by omega : ¬ 6 ≤ w), hgl, hlw]

/-- Every slot after initForLevel holds either the fresh sink or its old
value. -/
theorem initForLevel_files_cases (cfg : MFCfg) (st : MFState) (w l : Nat)
    (hw : w < 6) :
    (initForLevel cfg st w).files l = some st.nextId ∨
    (initForLevel cfg st w).files l = st.files l := by
  by_cases h1 : l = w
  · rw [h1]
    simp only [initForLevel, if_neg (by omega : ¬ 6 ≤ w)]
    simp
  · simp only [initForLevel, if_neg (by omega : ¬ 6 ≤ w)]
    simp only [if_neg h1]
    split_ifs with h2
    · exact Or.inl rfl
    · exact Or.inr rfl

theorem initForLevel_meta (cfg : MFCfg) (st : MFState) (w : Nat) (hw : w < 6) :
    (initForLevel cfg st w).createdDirs = st.createdDirs ++ [dirFor cfg w] ∧
    (initForLevel cfg st w).nextId = st.nextId + 1 ∧
    (initForLevel cfg st w).closes = st.closes := by
  simp [initForLevel, if_neg (by omega : ¬ 6 ≤ w)]

/-- One router write preserves the invariant; a slot becomes filled
exactly when its directory matches the written level or it already was
filled; and the created-directory list grows by at most that directory. -/
theorem mfWrite_inv (cfg : MFCfg) (st : MFState) (w : Nat) (hw : w < 6)
    (h : MFInv cfg st) :
    MFInv cfg (mfWrite cfg st w) ∧
    (∀ l, l < 6 → (((mfWrite cfg st w).files l).isSome ↔
      ((st.files l).isSome ∨ dirFor cfg l = dirFor cfg w))) ∧
    (∀ d, d ∈ (mfWrite cfg st w).createdDirs ↔
      (d ∈ st.createdDirs ∨ d = dirFor cfg w)) := by
  by_cases hcase : st.files w = none
  · -- the slot is empty: a sink is created and aliased through its group
    have hmf : mfWrite cfg st w = initForLevel cfg st w := by
      simp [mfWrite, hcase]
    obtain ⟨hcd, hni, hcl⟩ := initForLevel_meta cfg st w hw
    have hA := fun l hl hdir =>
      initForLevel_files_same cfg st w l hw hl hcase h.sh hdir
    have hB := fun l hdir => initForLevel_files_other cfg st w l hw hdir
    have hdirw : dirFor cfg w ∉ st.createdDirs := by
      have := (h.lz w hw).not
      simp [hcase] at this
      exact this
    rw [hmf]
    refine ⟨⟨?_, ?_, ?_, ?_, ?_, ?_⟩, ?_, ?_⟩
    · -- sh
      intro l1 l2 h1 h2 hd
      by_cases hq : dirFor cfg l1 = dirFor cfg w
      · rw [hA l1 h1 hq, hA l2 h2 (hd ▸ hq)]
      · rw [hB l1 hq, hB l2 (hd ▸ hq)]
        exact h.sh l1 l2 h1 h2 hd
    · -- lz
      intro l hl
      rw [hcd]
      by_cases hq : dirFor cfg l = dirFor cfg w
      · simp [hA l hl hq, hq]
      · rw [hB l hq]
        simp only [List.mem_append, List.mem_singleton]
        rw [h.lz l hl]
        simp [hq]
    · -- nd
      rw [hcd]
      simp only [List.nodup_append, List.nodup_singleton, true_and]
      exact ⟨h.nd, by simpa [List.disjoint_singleton] using hdirw⟩
    · -- inj
      intro l1 l2 f h1 h2 hf1 hf2
      by_cases hq1 : dirFor cfg l1 = dirFor cfg w
      · by_cases hq2 : dirFor cfg l2 = dirFor cfg w
        · rw [hq1, hq2]
        · rw [hA l1 h1 hq1] at hf1
          rw [hB l2 hq2] at hf2
          have hb := h.bound l2 f h2 hf2
          have hfe : st.nextId = f := by injection hf1
          omega
      · by_cases hq2 : dirFor cfg l2 = dirFor cfg w
        · rw [hB l1 hq1] at hf1
          rw [hA l2 h2 hq2] at hf2
          have hb := h.bound l1 f h1 hf1
          have hfe : st.nextId = f := by injection hf2
          omega
        · rw [hB l1 hq1] at hf1
          rw [hB l2 hq2] at hf2
          exact h.inj l1 l2 f h1 h2 hf1 hf2
    · -- surj
      intro f hf
      rw [hni] at hf
      by_cases hef : f = st.nextId
      · subst hef
        exact ⟨w, hw, hA w hw rfl⟩
      · have hf2 : f < st.nextId := by omega
        obtain ⟨l, hl, hfl⟩ := h.surj f hf2
        refine ⟨l, hl, ?_⟩
        have hq : dirFor cfg l ≠ dirFor cfg w := by
          intro he
          rw [h.sh l w hl hw he] at hfl
          rw [hcase] at hfl
          exact Option.noConfusion hfl
        rw [hB l hq]
        exact hfl
    · -- bound
      intro l f hl hfl
      rw [hni]
      rcases initForLevel_files_cases cfg st w l hw with hc | hc
      · rw [hc] at hfl
        have : st.nextId = f := by injection hfl
        omega
      · rw [hc] at hfl
        have := h.bound l f hl hfl
        omega
    · -- isSome characterisation
      intro l hl
      by_cases hq : dirFor cfg l = dirFor cfg w
      · simp [hA l hl hq, hq]
      · rw [hB l hq]
        simp [hq]
    · -- createdDirs characterisation
      intro d
      rw [hcd]
      simp
  · -- the slot is already filled: the write changes nothing
    have hmf : mfWrite cfg st w = st := by
      simp [mfWrite, hcase]
    rw [hmf]
    refine ⟨h, ?_, ?_⟩
    · intro l hl
      constructor
      · exact Or.inl
      · rintro (hs | hd)
        · exact hs
        · rw [h.sh l w hl hw hd]
          simpa [Option.isSome] using Option.ne_none_iff_isSome.mp hcase
    · intro d
      constructor
      · exact Or.inl
      · rintro (hd | rfl)
        · exact hd
        · rw [← h.lz w hw]
          exact Option.ne_none_iff_isSome.mp hcase

theorem mfRun_cons (cfg : MFCfg) (w : Nat) (t : List Nat) (st : MFState) :
    mfRun cfg (w :: t) st = mfRun cfg t (mfWrite cfg st w) := rfl

/-- Running any sequence of valid-level writes preserves the invariant; a
slot ends filled exactly when some write targeted its directory group; and
the created directories are exactly those of the written levels. -/
theorem mfRun_inv (cfg : MFCfg) (ws : List Nat) :
    ∀ st : MFState, (∀ w ∈ ws, w < 6) → MFInv cfg st →
    MFInv cfg (mfRun cfg ws st) ∧
    (∀ l, l < 6 → (((mfRun cfg ws st).files l).isSome ↔
      ((st.files l).isSome ∨ ∃ w ∈ ws, dirFor cfg w = dirFor cfg l))) ∧
    (∀ d, d ∈ (mfRun cfg ws st).createdDirs ↔
      (d ∈ st.createdDirs ∨ ∃ w ∈ ws, dirFor cfg w = d)) := by
  induction ws with
  | nil => intro st _ h; simp [mfRun]; exact h
  | cons w t ih =>
    intro st hval h
    have hw : w < 6 := hval w (by simp)
    have hstep := mfWrite_inv cfg st w hw h
    have hrec := ih (mfWrite cfg st w) (fun x hx => hval x (by simp [hx]))
      hstep.1
    rw [mfRun_cons]
    refine ⟨hrec.1, ?_, ?_⟩
    · intro l hl
      rw [hrec.2.1 l hl, hstep.2.1 l hl]
      constructor
      · rintro ((hs | hd) | ⟨x, hx, hdx⟩)
        · exact Or.inl hs
        · exact Or.inr ⟨w, by simp, hd.symm⟩
        · exact Or.inr ⟨x, by simp [hx], hdx⟩
      · rintro (hs | ⟨x, hx, hdx⟩)
        · exact Or.inl (Or.inl hs)
        · rcases List.mem_cons.mp hx with rfl | hx2
          · exact Or.inl (Or.inr hdx.symm)
          · exact Or.inr ⟨x, hx2, hdx⟩
    · intro d
      rw [hrec.2.2 d, hstep.2.2 d]
      constructor
      · rintro ((hd | rfl) | ⟨x, hx, hdx⟩)
        · exact Or.inl hd
        · exact Or.inr ⟨w, by simp, rfl⟩
        · exact Or.inr ⟨x, by simp [hx], hdx⟩
      · rintro (hd | ⟨x, hx, hdx⟩)
        · exact Or.inl (Or.inl hd)
        · rcases List.mem_cons.mp hx with rfl | hx2
          · exact Or.inl (Or.inr hdx.symm)
          · exact Or.inr ⟨x, hx2, hdx⟩

/-- Router writes never invoke a sink close. -/
theorem mfRun_closes (cfg : MFCfg) (ws : List Nat) :
    ∀ st : MFState, (∀ w ∈ ws, w < 6) → (mfRun cfg ws st).closes = st.closes := by
  induction ws with
  | nil => intro st _; rfl
  | cons w t ih =>
    intro st hval
    rw [mfRun_cons, ih _ (fun x hx => hval x (List.mem_cons_of_mem _ hx))]
    by_cases hc : st.files w = none
    · simp [mfWrite, hc,
        (initForLevel_meta cfg st w (hval w (List.mem_cons_self _ _))).2.2]
    · simp [mfWrite, hc]

/-- The router close hands each non-nil slot of levels 1..5 to the
underlying sink close, in slot order. -/
theorem mfClose_closes (st : MFState) :
    (mfClose st).closes = st.closes ++ ([1, 2, 3, 4, 5].filterMap st.files) := by
  rcases h1 : st.files 1 with _ | f1 <;> rcases h2 : st.files 2 with _ | f2 <;>
    rcases h3 : st.files 3 with _ | f3 <;> rcases h4 : st.files 4 with _ | f4 <;>
    rcases h5 : st.files 5 with _ | f5 <;>
    simp [mfClose, h1, h2, h3, h4, h5]

/-- Counting occurrences through filterMap when exactly one source element
maps to the value. -/
theorem count_filterMap_unique (g : Nat → Option Nat) (f : Nat) (l : List Nat)
    (hnd : l.Nodup) (l0 : Nat) (hmem : l0 ∈ l) (hg : g l0 = some f)
    (huniq : ∀ i ∈ l, g i = some f → i = l0) :
    (l.filterMap g).count f = 1 := by
  induction l with
  | nil => simp at hmem
  | cons a t ih =>
    rcases List.mem_cons.mp hmem with rfl | hmem2
    · rw [show List.filterMap g (l0 :: t) = f :: List.filterMap g t by
        simp [List.filterMap_cons, hg]]
      rw [List.count_cons_self]
      have : (t.filterMap g).count f = 0 := by
        rw [List.count_eq_zero]
        intro hf2
        obtain ⟨i, hit, hgi⟩ := List.mem_filterMap.mp hf2
        have hi := huniq i (List.mem_cons_of_mem _ hit) hgi
        subst hi
        exact (List.nodup_cons.mp hnd).1 hit
      omega
    · have hal : a ≠ l0 := by
        rintro rfl
        exact (List.nodup_cons.mp hnd).1 hmem2
      cases hga : g a with
      | none =>
        rw [show List.filterMap g (a :: t) = List.filterMap g t by
          simp [List.filterMap_cons, hga]]
        exact ih (List.nodup_cons.mp hnd).2 hmem2
          (fun i hi hgi => huniq i (List.mem_cons_of_mem _ hi) hgi)
      | some b =>
        have hbf : b ≠ f := by
          rintro rfl
          exact hal (huniq a (List.mem_cons_self _ _) hga)
        rw [show List.filterMap g (a :: t) = b :: List.filterMap g t by
          simp [List.filterMap_cons, hga]]
        rw [List.count_cons_of_ne (fun e => hbf e.symm)]
        exact ih (List.nodup_cons.mp hnd).2 hmem2
          (fun i hi hgi => huniq i (List.mem_cons_of_mem _ hi) hgi)

/-! ## Claim theorems -/

/-- Claim C1 (amended): with headers enabled (the default), a leveled
logging call at level L under threshold T writes if and only if L <= T in
the ordering FATAL < ERROR < WARN < INFO < DEBUG < TRACE; the printer
Printf gate satisfies the equivalence for all thresholds and levels.
(When headers are disabled via NoHeader and the rendered message is empty,
logger.output drops the entry despite passing the gate; see the
counterexample.) -/
theorem c1_level_gating (threshold level : Nat)
    (hL : level < LoggerPkg.NumLevel)
    (fileLen lineDigits fmtLen stackLen : Nat) (fmtEndsNl : Bool) :
    (LoggerPkg.leveledCall level threshold false fileLen lineDigits fmtLen
        fmtEndsNl stackLen = decide (level ≤ threshold)) ∧
    (∀ thr lv pfxPartLen fl ld fm sl : Nat, ∀ eNl : Bool,
      LogPkg.printfWrites thr lv pfxPartLen fl ld fm eNl sl = decide (lv ≤ thr)) := by
  constructor
  · simp only [LoggerPkg.NumLevel] at hL
    interval_cases level <;>
      simp [LoggerPkg.leveledCall, LoggerPkg.fatalCall, LoggerPkg.errorCall,
        LoggerPkg.warnCall, LoggerPkg.infoCall, LoggerPkg.debugCall,
        LoggerPkg.traceCall, LoggerPkg.FATAL, LoggerPkg.ERROR, LoggerPkg.WARN,
        LoggerPkg.INFO, LoggerPkg.DEBUG, LoggerPkg.TRACE, outputWrites_header]
  · intro thr lv pfxPartLen fl ld fm sl eNl
    have h := printerEntryLen_pos pfxPartLen fl ld fm eNl lv sl
    simp only [LogPkg.printfWrites]
    split_ifs with hle <;> simp [h, hle]

/-- Claim C1 witness: threshold WARN suppresses an INFO call, and the
Printf gate at threshold WARN, level ERROR admits the call. -/
theorem c1_level_gating_witness :
    LoggerPkg.leveledCall 3 2 false 10 1 5 false 0 = decide ((3 : Nat) ≤ 2) ∧
    LogPkg.printfWrites 3 2 0 10 1 5 false 0 = decide ((2 : Nat) ≤ 3) := by
  have h := c1_level_gating 2 3 (by decide) 10 1 5 0 false
  exact ⟨h.1, h.2 3 2 0 10 1 5 0 false⟩

/-- Claim C1 counterexample: with NoHeader set and an empty rendered
message, an INFO call under threshold TRACE passes the gate (INFO <= TRACE)
yet writes nothing, refuting the claimed equivalence as stated. -/
theorem c1_level_gating_cex :
    LoggerPkg.leveledCall 3 5 true 4 1 0 false 0 = false ∧ (3 : Nat) ≤ 5 := by
  constructor
  · rfl
  · decide

/-- Claim C2 (amended): a FATAL logging call terminates the process only
after the entry, with the stack trace appended, has been handed to the
sink write; in the timed-select printer this holds whenever the queue
accepts the entry (and always on the sync path), but when the 3-second
enqueue timeout fires the fatal entry is dropped and the process is not
terminated; the channel-based logger engine always writes then exits. -/
theorem c2_fatal_termination (threshold : Nat) (async running queueAccepts : Bool)
    (hT : LogPkg.LvFATAL ≤ threshold) :
    ((printfFatalTimed threshold async running queueAccepts).exited = true →
      (printfFatalTimed threshold async running queueAccepts).written = true ∧
      (printfFatalTimed threshold async running queueAccepts).stackAppended = true ∧
      (printfFatalTimed threshold async running queueAccepts).writePrecededExit = true) ∧
    ((async = false ∨ running = false ∨ queueAccepts = true) →
      (printfFatalTimed threshold async running queueAccepts).exited = true) ∧
    (∀ a : Bool, (loggerFatal a).written = true ∧ (loggerFatal a).exited = true ∧
      (loggerFatal a).stackAppended = true ∧ (loggerFatal a).writePrecededExit = true) := by
  refine ⟨?_, ?_, ?_⟩
  · cases async <;> cases running <;> cases queueAccepts <;>
      simp_all [printfFatalTimed, LogPkg.LvFATAL]
  · rintro (h | h | h)
    · subst h; simp_all [printfFatalTimed, LogPkg.LvFATAL]
    · subst h; cases async <;> simp_all [printfFatalTimed, LogPkg.LvFATAL]
    · subst h; cases async <;> cases running <;>
        simp_all [printfFatalTimed, LogPkg.LvFATAL]
  · intro a; cases a <;> simp [loggerFatal]

/-- Claim C2 witness: at threshold TRACE with the queue accepting, the
fatal call exits, the entry is written, and the write precedes the exit. -/
theorem c2_fatal_termination_witness :
    (printfFatalTimed 6 true true true).exited = true ∧
    (printfFatalTimed 6 true true true).written = true := by
  have h := c2_fatal_termination 6 true true true (by decide)
  have he := h.2.1 (Or.inr (Or.inr rfl))
  exact ⟨he, (h.1 he).1⟩

/-- Claim C2 counterexample: in the timed-select printer, a FATAL call at
an admitting threshold whose enqueue times out (the queue stays full for
the 3-second wait) neither writes the entry nor terminates the process,
refuting the claim that every FATAL call terminates the process after the
entry reaches the sink. -/
theorem c2_fatal_termination_cex :
    (printfFatalTimed 6 true true false).exited = false ∧
    (printfFatalTimed 6 true true false).written = false := by
  constructor <;> rfl

/-- Claim C3: if Shutdown is called while the engine is running, then
after it returns the pending queue is empty, every previously enqueued
entry has been handed to the sink write (appended in order), and the sink
close has been invoked exactly once more; calling Shutdown when already
stopped changes nothing and performs no further close. -/
theorem c3_shutdown_drains (s : EngineState) :
    (s.running = true →
      shutdown s = { running := false, queue := [],
                     written := s.written ++ s.queue,
                     closeCount := s.closeCount + 1 }) ∧
    (s.running = false → shutdown s = s) := by
  constructor <;> intro h <;>
    simp [shutdown, flushAll, popAll, writeEntries, h]

/-- Claim C3 witness: a running engine with two queued entries drains them
in order and closes once; a stopped engine is left untouched. -/
theorem c3_shutdown_drains_witness :
    shutdown { running := true, queue := [4, 5], written := [3], closeCount := 0 }
      = { running := false, queue := [], written := [3, 4, 5], closeCount := 1 } ∧
    shutdown { running := false, queue := [], written := [3], closeCount := 1 }
      = { running := false, queue := [], written := [3], closeCount := 1 } :=
  ⟨(c3_shutdown_drains _).1 rfl, (c3_shutdown_drains _).2 rfl⟩

/-- Claim C4: after Flush returns (it returns only while the worker is
running to consume the signal), every entry enqueued strictly before the
call has been handed to the sink write, appended after all previously
written entries in queue order, so flush never reorders entries. -/
theorem c4_flush_completeness (s : EngineState) (h : s.running = true) :
    (flushOp s).queue = [] ∧
    (flushOp s).written = s.written ++ s.queue ∧
    (flushOp s).running = true ∧
    (flushOp s).closeCount = s.closeCount := by
  simp [flushOp, flushAll, popAll, writeEntries, h]

/-- Claim C4 witness: flushing a running engine with entries 7 then 8
pending writes them after the already written 6, in order. -/
theorem c4_flush_completeness_witness :
    (flushOp { running := true, queue := [7, 8], written := [6], closeCount := 0 }).queue = [] ∧
    (flushOp { running := true, queue := [7, 8], written := [6], closeCount := 0 }).written
      = [6] ++ [7, 8] ∧
    (flushOp { running := true, queue := [7, 8], written := [6], closeCount := 0 }).running = true ∧
    (flushOp { running := true, queue := [7, 8], written := [6], closeCount := 0 }).closeCount = 0 :=
  c4_flush_completeness _ rfl

/-- Claim C7: for every pair of levels whose configured directories
resolve to the same path (FATAL and ERROR always share the error
directory), the router holds one single underlying sink instance for both
levels after any sequence of writes at valid levels; each directory has at
most one sink created for it (no duplicate writers); and a level slot is
populated exactly when some write targeted a level of its directory group
(lazy creation on first write at either level). -/
theorem c7_router_sharing (cfg : MFCfg) (ws : List Nat)
    (hws : ∀ w ∈ ws, w < 6) :
    (∀ l1 l2, l1 < 6 → l2 < 6 → dirFor cfg l1 = dirFor cfg l2 →
      (mfRun cfg ws MFState.init).files l1 = (mfRun cfg ws MFState.init).files l2) ∧
    (∀ d, ((mfRun cfg ws MFState.init).createdDirs.count d) ≤ 1) ∧
    (∀ l, l < 6 → (((mfRun cfg ws MFState.init).files l).isSome ↔
      ∃ w ∈ ws, dirFor cfg w = dirFor cfg l)) ∧
    (mfRun cfg ws MFState.init).files LoggerPkg.FATAL
      = (mfRun cfg ws MFState.init).files LoggerPkg.ERROR := by
  obtain ⟨hinv, hsome, _⟩ := mfRun_inv cfg ws MFState.init hws (mfInv_init cfg)
  refine ⟨hinv.sh, ?_, ?_, ?_⟩
  · exact List.nodup_iff_count_le_one.mp hinv.nd
  · intro l hl
    rw [hsome l hl]
    simp [MFState.init]
  · exact hinv.sh LoggerPkg.FATAL LoggerPkg.ERROR (by decide) (by decide)
      (by simp [dirFor, LoggerPkg.FATAL, LoggerPkg.ERROR])

/-- Claim C7 witness: with distinct directories, a single write at ERROR
populates the FATAL and ERROR slots with the same sink instance. -/
theorem c7_router_sharing_witness :
    (mfRun ⟨10, 11, 12, 13, 14⟩ [1] MFState.init).files 0
      = (mfRun ⟨10, 11, 12, 13, 14⟩ [1] MFState.init).files 1 ∧
    ((mfRun ⟨10, 11, 12, 13, 14⟩ [1] MFState.init).files 0).isSome := by
  have h := c7_router_sharing ⟨10, 11, 12, 13, 14⟩ [1] (by decide)
  refine ⟨h.1 0 1 (by decide) (by decide) rfl, ?_⟩
  exact (h.2.2.1 0 (by decide)).mpr ⟨1, by decide, rfl⟩

/-- Claim C8 (amended): the router close invokes the underlying close once
per non-nil slot of the levels ERROR..TRACE, skipping the FATAL slot (so
the built-in FATAL/ERROR sharing is closed exactly once through the ERROR
slot); every created sink is closed at least once, and exactly once
provided no two of the five levels ERROR..TRACE resolve to the same
directory; a sink aliased by same-directory levels among ERROR..TRACE is
closed once per aliasing slot; the underlying close errors are aggregated
into the returned error. -/
theorem c8_router_close (cfg : MFCfg) (ws : List Nat)
    (hws : ∀ w ∈ ws, w < 6) :
    ((mfClose (mfRun cfg ws MFState.init)).closes
      = [1, 2, 3, 4, 5].filterMap (mfRun cfg ws MFState.init).files) ∧
    (∀ f, f < (mfRun cfg ws MFState.init).nextId →
      1 ≤ ((mfClose (mfRun cfg ws MFState.init)).closes.count f)) ∧
    ((∀ l1 l2, 1 ≤ l1 → l1 < 6 → 1 ≤ l2 → l2 < 6 → l1 ≠ l2 →
        dirFor cfg l1 ≠ dirFor cfg l2) →
      ∀ f, f < (mfRun cfg ws MFState.init).nextId →
        (mfClose (mfRun cfg ws MFState.init)).closes.count f = 1) := by
  obtain ⟨hinv, _, _⟩ := mfRun_inv cfg ws MFState.init hws (mfInv_init cfg)
  set st := mfRun cfg ws MFState.init with hst
  have hcl : (mfClose st).closes = [1, 2, 3, 4, 5].filterMap st.files := by
    rw [mfClose_closes, hst, mfRun_closes cfg ws MFState.init hws]
    rfl
  have hmem15 : ∀ l, 1 ≤ l → l < 6 → l ∈ [1, 2, 3, 4, 5] := by
    intro l hge hlt
    interval_cases l <;> simp
  have hslot : ∀ f, f < st.nextId → ∃ l, 1 ≤ l ∧ l < 6 ∧ st.files l = some f := by
    intro f hf
    obtain ⟨l, hl, hfl⟩ := hinv.surj f hf
    by_cases hl0 : l = 0
    · refine ⟨1, by omega, by omega, ?_⟩
      rw [← hinv.sh 0 1 (by omega) (by omega) (by simp [dirFor])]
      rw [← hl0]
      exact hfl
    · exact ⟨l, by omega, hl, hfl⟩
  refine ⟨hcl, ?_, ?_⟩
  · intro f hf
    obtain ⟨l, h1, h2, hfl⟩ := hslot f hf
    rw [hcl]
    exact List.count_pos_iff.mpr (List.mem_filterMap.mpr ⟨l, hmem15 l h1 h2, hfl⟩)
  · intro hdist f hf
    obtain ⟨l0, h1, h2, hfl⟩ := hslot f hf
    rw [hcl]
    refine count_filterMap_unique st.files f [1, 2, 3, 4, 5] (by decide) l0
      (hmem15 l0 h1 h2) hfl ?_
    intro i hi hgi
    have hib : 1 ≤ i ∧ i < 6 := by fin_cases hi <;> exact ⟨by decide, by decide⟩
    by_contra hne
    exact hdist i l0 hib.1 hib.2 h1 h2 hne
      (hinv.inj i l0 f (by omega) (by omega) hgi hfl)

/-- Claim C8 witness: with all directories distinct, after a write at
ERROR (which aliases the FATAL slot to the same sink), the router close
closes sink 0 exactly once. -/
theorem c8_router_close_witness :
    (mfClose (mfRun ⟨10, 11, 12, 13, 14⟩ [1] MFState.init)).closes.count 0 = 1 := by
  have h := c8_router_close ⟨10, 11, 12, 13, 14⟩ [1] (by decide)
  refine h.2.2 ?_ 0 ?_
  · intro l1 l2 ha hb hc hd hne
    clear h
    interval_cases l1 <;> interval_cases l2 <;>
      first
      | exact absurd rfl hne
      | decide
  · decide

/-- Claim C8 counterexample: when the WARN and INFO directories resolve to
the same path, a single write at WARN aliases the INFO slot to the same
sink instance, and the router close then invokes that shared sink close
twice (once per slot), refuting the claim that no shared sink has its
close invoked more than once. -/
theorem c8_router_close_cex :
    dirFor ⟨0, 1, 1, 2, 3⟩ 2 = dirFor ⟨0, 1, 1, 2, 3⟩ 3 ∧
    (mfClose (mfRun ⟨0, 1, 1, 2, 3⟩ [2] MFState.init)).closes.count 0 = 2 := by
  constructor
  · rfl
  · rfl

/-- Claim C5 (amended): a write on a calendar day different from the
current file creation day rotates (day-based) before appending, even when
the size threshold is not reached; on the same day a size rotation follows
a write exactly when the accumulated size (banner included) reaches
maxSize; and writing maxSize+1 bytes of data across multiple same-day
calls to a fresh file triggers exactly one size rotation, provided
maxSize exceeds twice the rotation banner length plus one (the banner
bytes written by rotate count toward the accumulated size; the 64 MiB
default dwarfs the banner). -/
theorem c5_rotation_correctness (cfg : FileCfg) (s : FileState) (now : Int)
    (d : Nat) (ws : List Nat) (hw : s.hasWriter = true) :
    (now ≠ s.createdDay → cfg.bannerLen + d < cfg.maxSize →
      (fileWrite cfg now d true true s).1.dayRotCalls = s.dayRotCalls + 1 ∧
      (fileWrite cfg now d true true s).1.currentSize = cfg.bannerLen + d ∧
      (fileWrite cfg now d true true s).1.sizeRotCalls = s.sizeRotCalls) ∧
    (s.createdDay = now →
      ((fileWrite cfg now d true true s).1.sizeRotCalls = s.sizeRotCalls + 1 ↔
        cfg.maxSize ≤ s.currentSize + d)) ∧
    (s.createdDay = now → s.currentSize = cfg.bannerLen → s.sizeRotCalls = 0 →
      ws.sum = cfg.maxSize + 1 → 2 * cfg.bannerLen + 2 ≤ cfg.maxSize →
      (runWrites cfg now ws s).sizeRotCalls = 1) := by
  refine ⟨?_, ?_, ?_⟩
  · intro hne hsmall
    simp [fileWrite, rotate, closeCurrent, hw, hne]
    split_ifs <;> simp_all <;> omega
  · intro hd
    rw [fileWrite_same_day cfg now d s hw hd]
    by_cases hr : cfg.maxSize ≤ s.currentSize + d
    · rw [if_pos hr]; simpa using hr
    · rw [if_neg hr]; simpa using hr
  · intro hd hc hz hsum hbig
    have h1 := runWrites_at_least_one cfg now ws s hw hd (by omega)
      (by rw [hc, hsum]; omega)
    have h2 := runWrites_at_most_one cfg now ws s hw hd (by omega)
      (by rw [hc, hsum]; omega)
    omega

/-- Claim C5 witness: with maxSize 10 and banner length 2, a fresh file
written 5 then 6 bytes (11 = maxSize+1 in total) on its creation day
rotates exactly once; and a 3-byte write on the next day performs a day
rotation without a size rotation. -/
theorem c5_rotation_correctness_witness :
    (runWrites { maxSize := 10, bannerLen := 2 } 0 [5, 6]
      { currentSize := 2, createdDay := 0, fileIndex := 0, hasWriter := true,
        dayRotCalls := 0, sizeRotCalls := 0 }).sizeRotCalls = 1 ∧
    (fileWrite { maxSize := 10, bannerLen := 2 } 1 3 true true
      { currentSize := 2, createdDay := 0, fileIndex := 0, hasWriter := true,
        dayRotCalls := 0, sizeRotCalls := 0 }).1.dayRotCalls = 1 := by
  have h := c5_rotation_correctness { maxSize := 10, bannerLen := 2 }
    { currentSize := 2, createdDay := 0, fileIndex := 0, hasWriter := true,
      dayRotCalls := 0, sizeRotCalls := 0 } 0 3 [5, 6] rfl
  have h1 := h.2.2 rfl rfl rfl (by decide) (by decide)
  have h2 := (c5_rotation_correctness { maxSize := 10, bannerLen := 2 }
    { currentSize := 2, createdDay := 0, fileIndex := 0, hasWriter := true,
      dayRotCalls := 0, sizeRotCalls := 0 } 1 3 [] rfl).1 (by decide) (by decide)
  exact ⟨h1, h2.1⟩

/-- Claim C5 counterexample: with maxSize 2 and banner length 1 (the claim
as stated quantifies over every configured maxSize), writing maxSize+1 = 3
bytes as three 1-byte same-day writes to a fresh file triggers three size
rotations, not exactly one, because each rotation immediately re-seeds the
accumulated size with the banner. -/
theorem c5_rotation_correctness_cex :
    (1 : Nat) + 1 + 1 = 2 + 1 ∧
    (runWrites { maxSize := 2, bannerLen := 1 } 0 [1, 1, 1]
      (mkFile { maxSize := 2, bannerLen := 1 } 0 true).1).sizeRotCalls = 3 := by
  constructor
  · rfl
  · rfl

/-- Claim C6 (amended): when creating the new log file fails, rotate
returns that error; a write fails fast with the distinct writer-is-nil
error precisely when the underlying writer is nil, which is the case when
no file was ever successfully created (a failed initial rotation leaves
the writer nil); but a failed rotation never clears a previously installed
writer, so after a mid-life rotation failure subsequent writes proceed
against the stale writer instead of failing fast. -/
theorem c6_rotate_failure (cfg : FileCfg) (now : Int) (s : FileState) :
    ((rotate cfg now false s).2 = some .createFail) ∧
    (s.hasWriter = false →
      ∀ (d : Nat) (okDay okSize : Bool),
        fileWrite cfg now d okDay okSize s = (s, some .writerNil)) ∧
    ((mkFile cfg now false).1.hasWriter = false) ∧
    (s.hasWriter = true → (rotate cfg now false s).1.hasWriter = true) := by
  refine ⟨?_, ?_, ?_, ?_⟩
  · simp [rotate, closeCurrent]
  · intro hw d okDay okSize
    simp [fileWrite, hw]
  · simp [mkFile, rotate, closeCurrent]
  · intro hw
    simp [rotate, closeCurrent, hw]

/-- Claim C6 witness: a state that never had a writer fails fast with the
writer-is-nil error, and a failed rotate reports the creation error. -/
theorem c6_rotate_failure_witness :
    fileWrite { maxSize := 100, bannerLen := 5 } 2 7 true true
      { currentSize := 0, createdDay := -1, fileIndex := -1, hasWriter := false,
        dayRotCalls := 0, sizeRotCalls := 0 }
      = ({ currentSize := 0, createdDay := -1, fileIndex := -1, hasWriter := false,
           dayRotCalls := 0, sizeRotCalls := 0 }, some .writerNil) ∧
    (rotate { maxSize := 100, bannerLen := 5 } 2 false
      { currentSize := 0, createdDay := -1, fileIndex := -1, hasWriter := false,
        dayRotCalls := 0, sizeRotCalls := 0 }).2 = some .createFail := by
  have h := c6_rotate_failure { maxSize := 100, bannerLen := 5 } 2
    { currentSize := 0, createdDay := -1, fileIndex := -1, hasWriter := false,
      dayRotCalls := 0, sizeRotCalls := 0 }
  exact ⟨h.2.1 rfl 7 true true, h.1⟩

/-- Claim C6 counterexample: after a successful initial creation, a
day-change rotation whose file creation fails returns the error, yet the
writer field stays non-nil, and the following write neither sees a nil
writer nor fails: it returns no error at all, refuting the claim that
every subsequent write fails fast with the writer-is-nil error. -/
theorem c6_rotate_failure_cex :
    ((fileWrite { maxSize := 100, bannerLen := 5 } 1 3 false true
        (mkFile { maxSize := 100, bannerLen := 5 } 0 true).1).2
      = some .createFail) ∧
    ((fileWrite { maxSize := 100, bannerLen := 5 } 1 3 false true
        (mkFile { maxSize := 100, bannerLen := 5 } 0 true).1).1.hasWriter = true) ∧
    ((fileWrite { maxSize := 100, bannerLen := 5 } 1 4 true true
        (fileWrite { maxSize := 100, bannerLen := 5 } 1 3 false true
          (mkFile { maxSize := 100, bannerLen := 5 } 0 true).1).1).2 = none) := by
  refine ⟨rfl, rfl, rfl⟩

/-- Claim C9: a released entry is pushed onto the free list if and only if
its retained content is at most 256 bytes; an oversized entry is dropped
and is never handed out again by any number of later acquires. -/
theorem c9_pool_bound (freeList : List PoolEntry) (e : PoolEntry)
    (hFresh : e.id ∉ freeList.map PoolEntry.id) :
    ((e.id ∈ (putEntry e freeList).map PoolEntry.id) ↔ e.len ≤ 256) ∧
    (256 < e.len → ∀ n, e.id ∉ recycledIds n (putEntry e freeList)) := by
  constructor
  · unfold putEntry
    split_ifs with hlen
    · simp [hFresh]; omega
    · simp; omega
  · intro hlen n hmem
    have hsub := recycledIds_subset n (putEntry e freeList) e.id hmem
    unfold putEntry at hsub
    rw [if_pos hlen] at hsub
    exact hFresh hsub

/-- Claim C9 witness: releasing a 300-byte entry onto an empty free list
leaves it out of the pool, and three later acquires never return it. -/
theorem c9_pool_bound_witness :
    (7 : Nat) ∉ recycledIds 3
      (putEntry { id := 7, len := 300, headerLen := 0, nextNil := true } []) :=
  (c9_pool_bound [] _ (by simp)).2 (by decide) 3

/-- Claim C10 (amended): every entry returned by acquire has buffer length
0 and a nil next link, whether freshly allocated or recycled, so bytes of
a previous record never leak; the printer pool (entry.Reset) also clears
the header offset, but the logger pool recycles with a stale headerLength,
since its buffer type has no Reset override and the promoted
bytes.Buffer.Reset clears only the byte buffer (the stale offset is
overwritten by output before any use). -/
theorem c10_acquire_reset (freshId : Nat) (freeList : List PoolEntry) :
    ((getEntry freshId freeList).1.len = 0 ∧
     (getEntry freshId freeList).1.headerLen = 0 ∧
     (getEntry freshId freeList).1.nextNil = true) ∧
    ((getBuffer freshId freeList).1.len = 0 ∧
     (getBuffer freshId freeList).1.nextNil = true) ∧
    (∀ b : PoolEntry, ∀ rest : List PoolEntry,
      (getBuffer freshId (b :: rest)).1.headerLen = b.headerLen) := by
  refine ⟨?_, ?_, fun b rest => rfl⟩ <;> cases freeList <;>
    simp [getEntry, getBuffer]

/-- Claim C10 counterexample: a logger-pool buffer released with header
offset 5 is recycled by getBuffer with its header offset still 5, not 0,
refuting the claim that the header offset is cleared on every acquire. -/
theorem c10_acquire_reset_cex :
    (getBuffer 99 [{ id := 7, len := 10, headerLen := 5, nextNil := false }]).1.headerLen
      = 5 ∧ (5 : Nat) ≠ 0 := by
  constructor
  · rfl
  · decide

end MkidealLog
